import Mathlib

/-!
Verification development for the BDConverter conversion server.

The definitions below are a shallow embedding of the server's
conversion pipeline (`/convert` route handler and its helper closures
`processMergeTask` / `processConvertTask`, the task classifier, the
archive-level mapping, the page renumbering and the double-page split
logic).  Pure computations are translated directly; file-system and
subprocess effects are modelled as explicit data (argument lists,
event traces, page lists).  JavaScript strings are modelled as `String`
or `List Char`, JavaScript numbers as `Nat`/`Int` (the only fractional
comparison in scope, `width / height > 1.2`, is modelled exactly as the
rational comparison `5 * width > 6 * height`).
-/

namespace BDConverter

/-! ## Decimal rendering of numbers

Model of JavaScript `Number.prototype.toString` (base 10) for the
non-negative integers that occur in the code (page counts, indices).
A fuel parameter keeps the recursion structural so that terms reduce
by `decide` / `rfl`; the fuel `n + 1` always suffices.
-/

/-- Last decimal digit of `n`, as a character. -/
def decDigit (n : Nat) : Char :=
  match n % 10 with
  | 0 => '0' | 1 => '1' | 2 => '2' | 3 => '3' | 4 => '4'
  | 5 => '5' | 6 => '6' | 7 => '7' | 8 => '8' | _ => '9'

/-- Decimal digits of `n`, most significant first, with explicit fuel. -/
def natCharsAux : Nat → Nat → List Char
  | 0, _ => []
  | fuel + 1, n => if n < 10 then [decDigit n] else natCharsAux fuel (n / 10) ++ [decDigit n]

/-- Decimal digits of `n`, most significant first (model of `n.toString()`). -/
def natChars (n : Nat) : List Char := natCharsAux (n + 1) n

/-- Decimal string of `n` (model of `n.toString()` / template interpolation). -/
def natStr (n : Nat) : String := String.mk (natChars n)

/-! ## Extension extraction

Model of Node's `path.extname` applied to a bare file name (no
directory separators): the suffix starting at the last `.`, unless
that dot is the first character, in which case the empty string.
-/

/-- Suffix of `cs` starting at its last `.`, if any. -/
def extAux : List Char → Option (List Char)
  | [] => none
  | c :: cs =>
    match extAux cs with
    | some e => some e
    | none => if c = '.' then some (c :: cs) else none

/-- Model of `path.extname` for a basename, over character lists.
A leading dot (index 0) does not start an extension. -/
def extnameL : List Char → List Char
  | [] => []
  | _ :: rest =>
    match extAux rest with
    | some e => e
    | none => []

/-! ## Page renumbering

Model of the final renaming loop of `processConvertTask`:

  finalPageFiles.forEach((f, idx) => \x7b
    const num = (idx + 1).toString().padStart(Math.max(3, padding), '0');
    const newName = num + path.extname(f); ... \x7d)

where `padding = finalPageCount.toString().length`.
-/

/-- Model of `String.prototype.padStart(w, '0')`. -/
def padStart (w : Nat) (s : List Char) : List Char :=
  List.replicate (w - s.length) '0' ++ s

/-- One renaming step per page, carrying the 0-based position `i`. -/
def renumAux (w : Nat) : Nat → List (List Char) → List (List Char)
  | _, [] => []
  | i, f :: fs => (padStart w (natChars (i + 1)) ++ extnameL f) :: renumAux w (i + 1) fs

/-- Renumber a final page list: fixed width `max 3 (digits of N)`,
names `001.ext, 002.ext, ...` keeping each page's extension. -/
def renumber (names : List (List Char)) : List (List Char) :=
  renumAux (max 3 (natChars names.length).length) 0 names

/-! ## JavaScript-style defaults -/

/-- Model of `v || dflt` for an optional string: an absent or empty
string falls back to the default. -/
def jsOrString (v : Option String) (dflt : String) : String :=
  match v with
  | none => dflt
  | some s => if s.isEmpty then dflt else s

/-! ## Effective page counts (Page Source Resolver)

Models of the two `effectiveTotalPages` computations of
`processConvertTask`.  `pageStart` / `pageEnd` are the client-supplied
range bounds (`none` = absent, in which case the code defaults to
`1` / the total).
-/

/-- PDF path: `effectiveTotalPages` after the metadata query.
`totalPages` is the `pdfinfo` result (`none` on failure).  Faithful to
the source: when the clamped range is empty (`actualEnd < actualStart`)
the value is left at the raw total, not clamped to zero. -/
def pdfEffectiveTotalPages (totalPages : Option Nat) (pageStart pageEnd : Option Int) :
    Option Int :=
  match totalPages with
  | none => none
  | some t =>
    if t = 0 then some 0
    else
      let pStart := pageStart.getD 1
      let pEnd := pageEnd.getD (t : Int)
      let actualStart := max 1 pStart
      let actualEnd := min (t : Int) pEnd
      if actualStart ≤ actualEnd then some (actualEnd - actualStart + 1)
      else some (t : Int)

/-- Archive path: `effectiveTotalPages` over the sorted extracted
image list (`totalExtracted` images), clamped to `≥ 0` by
`Math.max(0, effEnd - effStart + 1)`. -/
def archiveEffectiveTotalPages (totalExtracted : Nat) (pageStart pageEnd : Option Int) :
    Int :=
  let pStart := pageStart.getD 1
  let pEnd := pageEnd.getD (totalExtracted : Int)
  let effStart := max 1 pStart
  let effEnd := min (totalExtracted : Int) pEnd
  max 0 (effEnd - effStart + 1)

/-- Modelled from the spec's words (for comparison with the code):
`effective count = min(total, end) − max(1, start) + 1`, clamped to be
at least 0, defaulting `start = 1` and `end = total`. -/
def specEffectiveCount (total : Nat) (pageStart pageEnd : Option Int) : Int :=
  max 0 (min (total : Int) (pageEnd.getD (total : Int)) - max 1 (pageStart.getD 1) + 1)

/-! ## Archive compression levels (Archive Assembler)

Models of the per-container compression level computations, one
definition per branch of the source.  `archCompVal` is the parsed
`archiveCompression` field (default 5); `isOriginal` is
`dpi === 'original'`.
-/

/-- `processMergeTask`, cbz branch: `isOriginal ? 0 : archCompVal`. -/
def mergeCbzLevel (isOriginal : Bool) (archCompVal : Int) : Int :=
  if isOriginal then 0 else archCompVal

/-- `processMergeTask`, cb7 branch: `isOriginal ? 0 : archCompVal`. -/
def mergeCb7Level (isOriginal : Bool) (archCompVal : Int) : Int :=
  if isOriginal then 0 else archCompVal

/-- `processMergeTask`, cbr branch:
`isOriginal ? 0 : (archCompVal === 0 ? 0 : 3)`. -/
def mergeCbrLevel (isOriginal : Bool) (archCompVal : Int) : Int :=
  if isOriginal then 0 else if archCompVal = 0 then 0 else 3

/-- `processMergeTask`, rar4 branch: same formula as the cbr branch. -/
def mergeRar4Level (isOriginal : Bool) (archCompVal : Int) : Int :=
  if isOriginal then 0 else if archCompVal = 0 then 0 else 3

/-- `processConvertTask`, cbz branch: `isOriginal ? 0 : archCompVal`. -/
def convertCbzLevel (isOriginal : Bool) (archCompVal : Int) : Int :=
  if isOriginal then 0 else archCompVal

/-- `processConvertTask`, cb7 branch: `isOriginal ? 0 : archCompVal`. -/
def convertCb7Level (isOriginal : Bool) (archCompVal : Int) : Int :=
  if isOriginal then 0 else archCompVal

/-- `processConvertTask`, cbr branch: `rarComp` from the if/else chain
mapping logical levels 0,1,3,5,7,9 to native 0..5 with default 3, and
0 in original mode. -/
def convertCbrLevel (isOriginal : Bool) (archCompVal : Int) : Int :=
  if isOriginal then 0
  else if archCompVal = 0 then 0
  else if archCompVal = 1 then 1
  else if archCompVal = 3 then 2
  else if archCompVal = 5 then 3
  else if archCompVal = 7 then 4
  else if archCompVal = 9 then 5
  else 3

/-- `processConvertTask`, rar4 branch: identical if/else chain as the
cbr branch. -/
def convertRar4Level (isOriginal : Bool) (archCompVal : Int) : Int :=
  if isOriginal then 0
  else if archCompVal = 0 then 0
  else if archCompVal = 1 then 1
  else if archCompVal = 3 then 2
  else if archCompVal = 5 then 3
  else if archCompVal = 7 then 4
  else if archCompVal = 9 then 5
  else 3

/-! ## Rasterizer argument lists (PDF path of `processConvertTask`)

Models of the option-argument construction for the external tool
invocation (the trailing positional `file.path` / `outputPrefix`
arguments are omitted: they are opaque paths, not processing options).
Numeric range bounds are rendered with `natStr`.
-/

/-- Original mode (`dpi === 'original'`): `pdfimages -all` plus the
optional page range.  No color, format, quality or resize option is
ever pushed on this branch. -/
def pdfOriginalArgs (pageStart pageEnd : Option Nat) : List String :=
  ["-all"]
    ++ (match pageStart with
        | some n => ["-f", natStr n]
        | none => [])
    ++ (match pageEnd with
        | some n => ["-l", natStr n]
        | none => [])

/-- Render mode: `pdftoppm` options.  `safeImgFormat` is the already
lower-cased `(imgFormat || 'jpeg')`; `compressionGiven` is the
truthiness of the raw `compression` field; `compVal` its parsed value. -/
def pdfRenderArgs (dpiVal : Nat) (maxW : Option Int) (safeImgFormat colorMode : String)
    (compressionGiven : Bool) (compVal : Nat) (pageStart pageEnd : Option Nat) :
    List String :=
  ["-r", natStr dpiVal]
    ++ (match maxW with
        | some w => if 0 < w then ["-scale-to-x", natStr w.toNat, "-scale-to-y", "-1"] else []
        | none => [])
    ++ (if safeImgFormat = "png" then
          ["-png"]
            ++ (if colorMode = "gray" then ["-gray"] else [])
            ++ (if colorMode = "mono" then ["-mono"] else [])
        else if safeImgFormat = "tiff" then
          ["-tiff"]
            ++ (if colorMode = "gray" then ["-gray"] else [])
            ++ (if colorMode = "mono" then ["-mono"] else [])
        else
          ["-jpeg"]
            ++ (if compressionGiven then ["-jpegopt", "quality=" ++ natStr compVal] else [])
            ++ (if colorMode = "gray" ∨ colorMode = "mono" then ["-gray"] else []))
    ++ (match pageStart with
        | some n => ["-f", natStr n]
        | none => [])
    ++ (match pageEnd with
        | some n => ["-l", natStr n]
        | none => [])

/-- Per-page operations the pipeline can apply via the image library. -/
inductive PageOp
  | rotateBy (angle : Int)
  | resizeToWidth (w : Nat)
  | resizeToDensity (d : Nat)
  | grayscale
  | encode (fmt : String)
  deriving DecidableEq

/-- PDF path, post-render step (after the external tool has produced
the page files): the only per-page operation is the rotation pass,
applied when a non-zero rotation was requested and the image library
is available. -/
def pdfPostRenderOps (rotAngle : Int) (sharpAvailable : Bool) : List PageOp :=
  if rotAngle ≠ 0 && sharpAvailable then [PageOp.rotateBy rotAngle] else []

/-! ## Double-page split (PDF path of `processConvertTask`)

Model of the `splitDouble === 'auto'` block.  A page is an image file
with the pixel dimensions the metadata query reports; the produced
page sequence records, for each output page, whether it is the
original file or an extracted half (with its crop rectangle).
The JavaScript test `meta.width / meta.height > 1.2` is modelled
exactly as `5 * width > 6 * height` (with the truthiness guards
`meta.width` / `meta.height`, i.e. both non-zero).
-/

/-- A page image with its metadata dimensions. -/
structure Img where
  name : String
  width : Nat
  height : Nat
  deriving DecidableEq

/-- Crop rectangle passed to the image library's extract call. -/
structure Crop where
  left : Nat
  top : Nat
  width : Nat
  height : Nat
  deriving DecidableEq

/-- An output page: the original file, or a cropped half of it. -/
inductive PageOut
  | whole (p : Img)
  | part (p : Img) (c : Crop)
  deriving DecidableEq

/-- Left half: `extract(\x7b left: 0, top: 0, width: halfW, height \x7d)`
with `halfW = Math.floor(width / 2)`. -/
def leftCrop (p : Img) : Crop :=
  { left := 0, top := 0, width := p.width / 2, height := p.height }

/-- Right half: `extract(\x7b left: width - halfW, top: 0, width: halfW, height \x7d)`. -/
def rightCrop (p : Img) : Crop :=
  { left := p.width - p.width / 2, top := 0, width := p.width / 2, height := p.height }

/-- Guarded wide-page test: `meta.width && meta.height && (width / height) > 1.2`. -/
def isWide (p : Img) : Bool :=
  decide (0 < p.width) && decide (0 < p.height) && decide (6 * p.height < 5 * p.width)

/-- Is the reading direction `(readingDir || 'ltr')` left-to-right? -/
def splitLtr (readingDir : Option String) : Bool :=
  jsOrString readingDir "ltr" = "ltr"

/-- Expansion of a single page in auto-split mode: a wide page becomes
its two halves ordered by reading direction, any other page stays. -/
def expandPage (readingDir : Option String) (p : Img) : List PageOut :=
  if isWide p then
    if splitLtr readingDir then [PageOut.part p (leftCrop p), PageOut.part p (rightCrop p)]
    else [PageOut.part p (rightCrop p), PageOut.part p (leftCrop p)]
  else [PageOut.whole p]

/-- The `expandedFiles` list of the PDF path: with `splitDouble==='auto'`,
the image library available and original mode off, the first
`min(imgFiles.length, effectiveTotalPages)` pages are expanded one by
one; otherwise the list is `imgFiles.slice(0, effectiveTotalPages)`. -/
def expandedFiles (splitDouble : Option String) (sharpAvailable isOriginal : Bool)
    (readingDir : Option String) (eff : Nat) (imgFiles : List Img) : List PageOut :=
  if splitDouble = some "auto" && sharpAvailable && !isOriginal then
    ((imgFiles.take eff).map (expandPage readingDir)).flatten
  else
    (imgFiles.take eff).map PageOut.whole

/-- The `pages` field of the Result returned by `processConvertTask`:
it is the (never updated) `effectiveTotalPages` value. -/
def convertReportedPages (effectiveTotalPagesAtReturn : Nat) : Nat :=
  effectiveTotalPagesAtReturn

/-! ## Task classifier (`/convert` grouping logic)

An uploaded file is modelled by an identity tag (distinct per upload
list entry), its path split into segments (the code splits
`originalname` on `/` after normalising `\` separators) and its
lower-cased extension (what the image-type regex inspects).  Task
names are not modelled: no claim mentions them.
-/

/-- An uploaded file as the classifier sees it. -/
structure UpFile where
  id : Nat
  parts : List String
  ext : String
  deriving DecidableEq

/-- Extensions matched by the image regex
`/\.(jpg|jpeg|png|tif|tiff|bmp|webp)$/i`. -/
def imageExts : List String := ["jpg", "jpeg", "png", "tif", "tiff", "bmp", "webp"]

/-- `isImageFile` of the source. -/
def isImageFile (f : UpFile) : Bool := imageExts.contains f.ext

/-- `parts.length > 1`: the file lives inside a folder. -/
def isFolderFile (f : UpFile) : Bool := decide (1 < f.parts.length)

/-- `parts[0]`, the grouping key for folder files. -/
def firstSeg (f : UpFile) : String := f.parts.headD ""

inductive TaskKind
  | MERGE
  | CONVERT
  deriving DecidableEq

/-- A classified task: its kind and the uploaded files it owns. -/
structure TaskC where
  kind : TaskKind
  files : List UpFile
  deriving DecidableEq

/-- The root files (single path segment), in upload order. -/
def rootFilesOf (files : List UpFile) : List UpFile :=
  files.filter (fun f => !isFolderFile f)

/-- The root images, feeding the single root MERGE task. -/
def rootImagesOf (files : List UpFile) : List UpFile :=
  (rootFilesOf files).filter isImageFile

/-- The root MERGE task, present only when there are root images. -/
def rootMergeTasks (files : List UpFile) : List TaskC :=
  let ri := rootImagesOf files
  if ri.isEmpty then [] else [{ kind := TaskKind.MERGE, files := ri }]

/-- Group keys: first segments of folder files (deduplicated). -/
def groupKeys (files : List UpFile) : List String :=
  ((files.filter isFolderFile).map firstSeg).dedup

/-- The files pushed into `groups[k]`, in upload order. -/
def groupFiles (files : List UpFile) (k : String) : List UpFile :=
  files.filter (fun f => isFolderFile f && firstSeg f == k)

/-- The MERGE task for folder `k`: only its image files, and no task
at all when the folder holds no image. -/
def folderTasksFor (files : List UpFile) (k : String) : List TaskC :=
  let imgs := (groupFiles files k).filter isImageFile
  if imgs.isEmpty then [] else [{ kind := TaskKind.MERGE, files := imgs }]

/-- Root non-image files, each one its own CONVERT task. -/
def convertTasksOf (files : List UpFile) : List TaskC :=
  ((rootFilesOf files).filter (fun f => !isImageFile f)).map
    (fun f => { kind := TaskKind.CONVERT, files := [f] })

/-- The full classifier: root-image MERGE, per-folder MERGE tasks,
then per-document CONVERT tasks. -/
def classify (files : List UpFile) : List TaskC :=
  rootMergeTasks files
    ++ ((groupKeys files).map (folderTasksFor files)).flatten
    ++ convertTasksOf files

/-- How many slots of task `t` hold (a file with the id of) `f`. -/
def fileCountIn (f : UpFile) (t : TaskC) : Nat :=
  t.files.countP (fun g => g.id == f.id)

/-- Total number of task memberships of `f` across a task list. -/
def memberCount (f : UpFile) (ts : List TaskC) : Nat :=
  (ts.map (fileCountIn f)).sum

/-! ## Orchestrator (`/convert` task loop and response)

The task loop awaits each task in order inside one big `try`; a
rejection anywhere propagates to the route-level `catch`, which sends
a 500 error.  Task execution is modelled as a function into `Except`.
-/

/-- The sequential task loop: results are accumulated until the first
task error, which propagates. -/
def runTaskLoop {α β : Type} (step : α → Except String β) : List α → Except String (List β)
  | [] => Except.ok []
  | t :: ts =>
    match step t with
    | Except.error e => Except.error e
    | Except.ok r =>
      match runTaskLoop step ts with
      | Except.error e => Except.error e
      | Except.ok rs => Except.ok (r :: rs)

/-- The HTTP response of the `/convert` handler. -/
inductive BatchResponse (β : Type)
  | success (results : List β)
  | failure (msg : String)

/-- The `/convert` handler: a JSON success body listing the task
results, or a 500 error page from the `catch` block. -/
def convertHandler {α β : Type} (step : α → Except String β) (tasks : List α) :
    BatchResponse β :=
  match runTaskLoop step tasks with
  | Except.ok rs => BatchResponse.success rs
  | Except.error e => BatchResponse.failure e

/-- The task results visible in the batch response. -/
def reportedResults {β : Type} : BatchResponse β → List β
  | BatchResponse.success rs => rs
  | BatchResponse.failure _ => []

/-- A concrete task runner for counterexamples: task 0 fails the way
an empty page range does, any other task succeeds. -/
def demoStep (t : Nat) : Except String Nat :=
  if t = 0 then Except.error "No images in range." else Except.ok (t + 100)

/-! ## Cleanup and reporting order (success path vs `catch` handler)

The observable side effects of one CONVERT task's completion are
modelled as an event trace, in program order.
-/

/-- Observable task-completion events. -/
inductive Ev
  | removeTempDir
  | removeSource
  | reportSuccess
  | reportFailure
  deriving DecidableEq

/-- Success path of `processConvertTask` and the handler: the task's
temporary directory is removed, then its uploaded source file, then
the aggregated success response is sent. -/
def convertSuccessTrace : List Ev :=
  [Ev.removeTempDir, Ev.removeSource, Ev.reportSuccess]

/-- Failure path (route-level `catch`): the 500 response is sent
first, then the uploaded source files are unlinked.  No temporary
directory is removed on this path. -/
def convertFailureTrace : List Ev :=
  [Ev.reportFailure, Ev.removeSource]

/-! ## Output container format fallback -/

/-- The recognized output formats. -/
def allowedFormats : List String := ["cbz", "cbt", "cb7", "cbr", "pdf", "rar4", "folder"]

/-- `safeFormat`: the requested format when recognized, else `cbz`
(an absent format field is likewise unrecognized). -/
def safeFormat (format : Option String) : String :=
  match format with
  | some f => if allowedFormats.contains f then f else "cbz"
  | none => "cbz"

/-- The output artifact name: `fileName.safeFormat`, with `rar4`
renamed to the conventional `.cbr` and `folder` using the bare name. -/
def outputFileName (fileName : String) (format : Option String) : String :=
  let sf := safeFormat format
  if sf = "rar4" then fileName ++ ".cbr"
  else if sf = "folder" then fileName
  else fileName ++ "." ++ sf

/-! ## Lemmas about digits, extensions and renumbering -/

theorem decDigit_isDigit (n : Nat) : '0' ≤ decDigit n ∧ decDigit n ≤ '9' := by
  unfold decDigit
  split <;> exact ⟨by decide, by decide⟩

theorem natCharsAux_isDigit (fuel n : Nat) :
    ∀ c ∈ natCharsAux fuel n, '0' ≤ c ∧ c ≤ '9' := by
  induction fuel generalizing n with
  | zero => intro c hc; simp [natCharsAux] at hc
  | succ fuel ih =>
    intro c hc
    simp only [natCharsAux] at hc
    split at hc
    · simp at hc
      subst hc
      exact decDigit_isDigit n
    · rcases List.mem_append.mp hc with h | h
      · exact ih (n / 10) c h
      · simp at h
        subst h
        exact decDigit_isDigit n

theorem natChars_isDigit (n : Nat) : ∀ c ∈ natChars n, '0' ≤ c ∧ c ≤ '9' :=
  natCharsAux_isDigit (n + 1) n

theorem natChars_ne_nil (n : Nat) : natChars n ≠ [] := by
  unfold natChars natCharsAux
  split <;> simp

theorem natChars_no_dot (n : Nat) : ∀ c ∈ natChars n, c ≠ '.' := by
  intro c hc he
  have h := natChars_isDigit n c hc
  subst he
  exact absurd h.1 (by decide)

theorem natStr_ne_of_head_low (n : Nat) (c : Char) (rest : List Char)
    (hc : c < '0') : natStr n ≠ String.mk (c :: rest) := by
  intro h
  unfold natStr at h
  have hl : natChars n = c :: rest := by
    injection h
  have : '0' ≤ c ∧ c ≤ '9' := natChars_isDigit n c (by rw [hl]; exact List.mem_cons_self c rest)
  exact absurd this.1 (not_le.mpr hc)

theorem extAux_eq_none_of_no_dot (cs : List Char) (h : ∀ c ∈ cs, c ≠ '.') :
    extAux cs = none := by
  induction cs with
  | nil => rfl
  | cons c cs ih =>
    have htail : extAux cs = none := ih (fun x hx => h x (List.mem_cons_of_mem c hx))
    have hc : c ≠ '.' := h c (List.mem_cons_self c cs)
    simp [extAux, htail, hc]

theorem no_dot_of_extAux_eq_none (cs : List Char) (h : extAux cs = none) :
    ∀ c ∈ cs, c ≠ '.' := by
  induction cs with
  | nil => intro c hc; simp at hc
  | cons c cs ih =>
    have hsplit : c ≠ '.' ∧ extAux cs = none := by
      rcases he : extAux cs with _ | e
      · simp only [extAux, he] at h
        refine ⟨?_, rfl⟩
        intro hc
        rw [if_pos hc] at h
        cases h
      · simp only [extAux, he] at h
        exact absurd h (by simp)
    intro x hx
    rcases List.mem_cons.mp hx with rfl | hx'
    · exact hsplit.1
    · exact ih hsplit.2 x hx'

theorem extAux_append_dot (xs ys : List Char) (h : ∀ c ∈ ys, c ≠ '.') :
    extAux (xs ++ '.' :: ys) = some ('.' :: ys) := by
  induction xs with
  | nil =>
    have hy : extAux ys = none := extAux_eq_none_of_no_dot ys h
    simp [extAux, hy]
  | cons x xs ih =>
    simp only [List.cons_append, extAux, List.append_eq, ih]

theorem extAux_shape (cs : List Char) (e : List Char) (h : extAux cs = some e) :
    ∃ t, e = '.' :: t ∧ ∀ c ∈ t, c ≠ '.' := by
  induction cs with
  | nil => simp [extAux] at h
  | cons c cs ih =>
    simp only [extAux] at h
    rcases he : extAux cs with _ | e'
    · rw [he] at h
      by_cases hc : c = '.'
      · rw [if_pos hc] at h
        simp at h
        subst hc
        exact ⟨cs, by rw [← h], no_dot_of_extAux_eq_none cs he⟩
      · rw [if_neg hc] at h
        simp at h
    · rw [he] at h
      simp at h
      subst h
      exact ih he

theorem extnameL_shape (cs : List Char) :
    extnameL cs = [] ∨ ∃ t, extnameL cs = '.' :: t ∧ ∀ c ∈ t, c ≠ '.' := by
  cases cs with
  | nil => left; rfl
  | cons c rest =>
    simp only [extnameL]
    rcases he : extAux rest with _ | e
    · left; rfl
    · right
      obtain ⟨t, ht, hnd⟩ := extAux_shape rest e he
      exact ⟨t, by rw [ht], hnd⟩

/-- Core renumbering stability fact: prepending a nonempty dot-free
name to an extension produced by `extnameL` does not change its
extension. -/
theorem extnameL_prefix_ext (ds : List Char) (cs : List Char)
    (hne : ds ≠ []) (hnd : ∀ c ∈ ds, c ≠ '.') :
    extnameL (ds ++ extnameL cs) = extnameL cs := by
  rcases extnameL_shape cs with h0 | ⟨t, ht, htnd⟩
  · rw [h0, List.append_nil]
    cases ds with
    | nil => exact absurd rfl hne
    | cons d ds' =>
      simp only [extnameL]
      have : extAux ds' = none :=
        extAux_eq_none_of_no_dot ds' (fun c hc => hnd c (List.mem_cons_of_mem d hc))
      simp [this]
  · rw [ht]
    cases ds with
    | nil => exact absurd rfl hne
    | cons d ds' =>
      simp only [List.cons_append, extnameL]
      rw [extAux_append_dot ds' t (fun c hc => htnd c hc)]

theorem padStart_ne_nil (w : Nat) (n : Nat) : padStart w (natChars n) ≠ [] := by
  unfold padStart
  intro h
  rcases List.append_eq_nil.mp h with ⟨_, h2⟩
  exact natChars_ne_nil n h2

theorem padStart_no_dot (w : Nat) (n : Nat) :
    ∀ c ∈ padStart w (natChars n), c ≠ '.' := by
  intro c hc
  unfold padStart at hc
  rcases List.mem_append.mp hc with h | h
  · have := List.eq_of_mem_replicate h
    subst this
    decide
  · exact natChars_no_dot n c h

theorem renumAux_length (w : Nat) (i : Nat) (fs : List (List Char)) :
    (renumAux w i fs).length = fs.length := by
  induction fs generalizing i with
  | nil => rfl
  | cons f fs ih => simp [renumAux, ih]

theorem renumber_length (ns : List (List Char)) :
    (renumber ns).length = ns.length := renumAux_length _ _ _

theorem renumAux_idem (w : Nat) (i : Nat) (fs : List (List Char)) :
    renumAux w i (renumAux w i fs) = renumAux w i fs := by
  induction fs generalizing i with
  | nil => rfl
  | cons f fs ih =>
    simp only [renumAux, List.cons.injEq]
    constructor
    · rw [extnameL_prefix_ext _ _ (padStart_ne_nil w (i + 1)) (padStart_no_dot w (i + 1))]
    · exact ih (i + 1)

theorem renumAux_get (w : Nat) (fs : List (List Char)) :
    ∀ (j i : Nat) (h1 : i < fs.length) (h2 : i < (renumAux w j fs).length),
      (renumAux w j fs).get ⟨i, h2⟩ =
        padStart w (natChars (j + i + 1)) ++ extnameL (fs.get ⟨i, h1⟩) := by
  induction fs with
  | nil => intro j i h1; simp at h1
  | cons f fs ih =>
    intro j i h1 h2
    cases i with
    | zero => simp [renumAux]
    | succ i' =>
      have h1' : i' < fs.length := by simpa using h1
      have h2' : i' < (renumAux w (j + 1) fs).length := by
        rw [renumAux_length]; exact h1'
      have harith : j + 1 + i' + 1 = j + (i' + 1) + 1 := by omega
      simp only [renumAux, List.get_cons_succ]
      rw [ih (j + 1) i' h1' h2', harith]

/-! ## Helper lemmas -/

/-- A decimal number string never equals a string holding a character
outside the digit range. -/
theorem natStr_ne_flag (n : Nat) (s : String) (h : ∃ c ∈ s.data, c < '0' ∨ '9' < c) :
    natStr n ≠ s := by
  intro heq
  obtain ⟨c, hc, hbad⟩ := h
  have hdata : s.data = natChars n := by
    rw [← heq]; rfl
  have hmem : c ∈ natChars n := by rwa [hdata] at hc
  have hd := natChars_isDigit n c hmem
  rcases hbad with h1 | h2
  · exact absurd hd.1 (not_le.mpr h1)
  · exact absurd hd.2 (not_le.mpr h2)

theorem mem_pdfOriginalArgs (s : String) (ps pe : Option Nat)
    (h : s ∈ pdfOriginalArgs ps pe) :
    s = "-all" ∨ s = "-f" ∨ s = "-l" ∨ ∃ n, s = natStr n := by
  unfold pdfOriginalArgs at h
  rcases ps with _ | a <;> rcases pe with _ | b <;> simp at h <;> tauto

theorem flag_not_mem_pdfOriginalArgs (ps pe : Option Nat) (s : String)
    (hne : s ≠ "-all" ∧ s ≠ "-f" ∧ s ≠ "-l")
    (hd : ∃ c ∈ s.data, c < '0' ∨ '9' < c) :
    s ∉ pdfOriginalArgs ps pe := by
  intro hmem
  rcases mem_pdfOriginalArgs s ps pe hmem with h | h | h | ⟨n, h⟩
  · exact hne.1 h
  · exact hne.2.1 h
  · exact hne.2.2 h
  · exact natStr_ne_flag n s hd h.symm

/-! ## Claim theorems -/

/-- C10: an unrecognized requested output format never fails; it
silently falls back to `cbz` and the output artifact carries the
`.cbz` extension. -/
theorem unrecognized_format_falls_back_to_cbz (format : Option String)
    (hbad : ∀ f, format = some f → f ∉ allowedFormats) :
    safeFormat format = "cbz" ∧
    ∀ fileName, outputFileName fileName format = fileName ++ ".cbz" := by
  have hsf : safeFormat format = "cbz" := by
    rcases format with _ | f
    · rfl
    · have : f ∉ allowedFormats := hbad f rfl
      simp [safeFormat, this]
  refine ⟨hsf, fun fileName => ?_⟩
  unfold outputFileName
  rw [hsf]
  rw [if_neg (by decide), if_neg (by decide), String.append_assoc]
  congr 1

/-- C10 witness: the unrecognized format `zip` falls back to `cbz`. -/
theorem unrecognized_format_falls_back_to_cbz_witness :
    safeFormat (some "zip") = "cbz" ∧
    outputFileName "album" (some "zip") = "album" ++ ".cbz" := by
  have h := unrecognized_format_falls_back_to_cbz (some "zip")
    (by intro f hf; injection hf with hf; subst hf; decide)
  exact ⟨h.1, h.2 "album"⟩

/-- C8: outside original mode, the rar-like level mapping follows the
breakpoints logical 0,1,3,5,7,9 to native 0,1,2,3,4,5, and every other
logical value maps to the default native level 3 (for both the cbr and
the rar4 branch of `processConvertTask`). -/
theorem rar_level_breakpoints :
    (convertCbrLevel false 0 = 0 ∧ convertCbrLevel false 1 = 1 ∧
     convertCbrLevel false 3 = 2 ∧ convertCbrLevel false 5 = 3 ∧
     convertCbrLevel false 7 = 4 ∧ convertCbrLevel false 9 = 5 ∧
     convertRar4Level false 0 = 0 ∧ convertRar4Level false 1 = 1 ∧
     convertRar4Level false 3 = 2 ∧ convertRar4Level false 5 = 3 ∧
     convertRar4Level false 7 = 4 ∧ convertRar4Level false 9 = 5) ∧
    ∀ v : Int, v ≠ 0 → v ≠ 1 → v ≠ 3 → v ≠ 5 → v ≠ 7 → v ≠ 9 →
      convertCbrLevel false v = 3 ∧ convertRar4Level false v = 3 := by
  refine ⟨by decide, ?_⟩
  intro v h0 h1 h3 h5 h7 h9
  constructor <;> simp [convertCbrLevel, convertRar4Level, h0, h1, h3, h5, h7, h9]

/-- C8 witness: an off-breakpoint level (4) maps to the default 3. -/
theorem rar_level_breakpoints_witness :
    convertCbrLevel false 4 = 3 ∧ convertRar4Level false 4 = 3 :=
  rar_level_breakpoints.2 4 (by decide) (by decide) (by decide) (by decide)
    (by decide) (by decide)

/-- C5: original mode forces compression level 0 for every container
kind with levels, in both task helpers, regardless of the requested
level; and the original-mode document branch applies no color, format,
quality or resize option — the post-render step can only rotate. -/
theorem original_mode_level_and_transform :
    (∀ v : Int,
      mergeCbzLevel true v = 0 ∧ mergeCb7Level true v = 0 ∧
      mergeCbrLevel true v = 0 ∧ mergeRar4Level true v = 0 ∧
      convertCbzLevel true v = 0 ∧ convertCb7Level true v = 0 ∧
      convertCbrLevel true v = 0 ∧ convertRar4Level true v = 0) ∧
    (∀ ps pe : Option Nat,
      "-gray" ∉ pdfOriginalArgs ps pe ∧ "-mono" ∉ pdfOriginalArgs ps pe ∧
      "-png" ∉ pdfOriginalArgs ps pe ∧ "-tiff" ∉ pdfOriginalArgs ps pe ∧
      "-jpeg" ∉ pdfOriginalArgs ps pe ∧ "-jpegopt" ∉ pdfOriginalArgs ps pe ∧
      "-scale-to-x" ∉ pdfOriginalArgs ps pe) ∧
    (∀ (rotAngle : Int) (sharpAvailable : Bool),
      PageOp.grayscale ∉ pdfPostRenderOps rotAngle sharpAvailable ∧
      (∀ w, PageOp.resizeToWidth w ∉ pdfPostRenderOps rotAngle sharpAvailable) ∧
      (∀ d, PageOp.resizeToDensity d ∉ pdfPostRenderOps rotAngle sharpAvailable) ∧
      (∀ fmt, PageOp.encode fmt ∉ pdfPostRenderOps rotAngle sharpAvailable)) := by
  refine ⟨?_, ?_, ?_⟩
  · intro v
    refine ⟨rfl, rfl, rfl, rfl, rfl, rfl, rfl, rfl⟩
  · intro ps pe
    refine ⟨?_, ?_, ?_, ?_, ?_, ?_, ?_⟩ <;>
      exact flag_not_mem_pdfOriginalArgs ps pe _ (by decide) (by decide)
  · intro rotAngle sharpAvailable
    unfold pdfPostRenderOps
    split <;> simp

/-- C5 witness: original mode at requested level 9 stores (level 0)
and a ranged original extraction pushes no grayscale flag. -/
theorem original_mode_level_and_transform_witness :
    convertCbzLevel true 9 = 0 ∧ "-gray" ∉ pdfOriginalArgs (some 2) (some 8) :=
  ⟨(original_mode_level_and_transform.1 9).2.2.2.2.1,
   (original_mode_level_and_transform.2.1 (some 2) (some 8)).1⟩

/-- C4: in auto split mode a page with width/height ratio above 1.2
(modelled as `5 * width > 6 * height`) is replaced by its two
half-width crops, the right half first when the reading direction is
not left-to-right (and left first otherwise); a page with ratio at
most 1.2 stays whole. -/
theorem double_split_behavior (p : Img) (readingDir : Option String) :
    (0 < p.height → 6 * p.height < 5 * p.width →
      ((splitLtr readingDir = false →
         expandPage readingDir p = [PageOut.part p (rightCrop p), PageOut.part p (leftCrop p)]) ∧
       (splitLtr readingDir = true →
         expandPage readingDir p = [PageOut.part p (leftCrop p), PageOut.part p (rightCrop p)]) ∧
       (leftCrop p).width = p.width / 2 ∧ (rightCrop p).width = p.width / 2)) ∧
    (5 * p.width ≤ 6 * p.height → expandPage readingDir p = [PageOut.whole p]) := by
  constructor
  · intro hh hw
    have hwide : isWide p = true := by
      simp only [isWide, Bool.and_eq_true, decide_eq_true_eq]
      omega
    refine ⟨?_, ?_, rfl, rfl⟩ <;> intro hdir <;> simp [expandPage, hwide, hdir]
  · intro hle
    have hwide : isWide p = false := by
      simp only [isWide, Bool.and_eq_false_iff, decide_eq_false_iff_not, not_lt]
      omega
    simp [expandPage, hwide]

/-- C4 witness: a 200x100 page splits right-half-first under `rtl`,
and a 100x100 page stays whole. -/
theorem double_split_behavior_witness :
    expandPage (some "rtl") ⟨"page-001.jpg", 200, 100⟩ =
      [PageOut.part ⟨"page-001.jpg", 200, 100⟩ (rightCrop ⟨"page-001.jpg", 200, 100⟩),
       PageOut.part ⟨"page-001.jpg", 200, 100⟩ (leftCrop ⟨"page-001.jpg", 200, 100⟩)] ∧
    expandPage (some "rtl") ⟨"page-002.jpg", 100, 100⟩ = [PageOut.whole ⟨"page-002.jpg", 100, 100⟩] :=
  ⟨((double_split_behavior ⟨"page-001.jpg", 200, 100⟩ (some "rtl")).1
      (by decide) (by decide)).1 (by decide),
   (double_split_behavior ⟨"page-002.jpg", 100, 100⟩ (some "rtl")).2 (by decide)⟩

/-- C2 counterexample: a 10-page PDF with requested range [20, 30]
keeps `effectiveTotalPages = 10` on the paginated-document path, while
the claimed clamped formula (and the archive path) give 0. -/
theorem effective_count_pdf_counterexample :
    pdfEffectiveTotalPages (some 10) (some 20) (some 30) = some 10 ∧
    specEffectiveCount 10 (some 20) (some 30) = 0 ∧
    archiveEffectiveTotalPages 10 (some 20) (some 30) = 0 := by
  refine ⟨?_, ?_, ?_⟩ <;> decide

/-- C2 (amended): the archive path always equals the clamped formula
`max 0 (min(T,end) − max(1,start) + 1)`; the document path equals it
only when the clamped range is non-empty, and otherwise falls back to
the full total `T` instead of 0. -/
theorem effective_count_amended (t : Nat) (ps pe : Option Int) :
    archiveEffectiveTotalPages t ps pe = specEffectiveCount t ps pe ∧
    (0 < t → max 1 (ps.getD 1) ≤ min (t : Int) (pe.getD (t : Int)) →
      pdfEffectiveTotalPages (some t) ps pe = some (specEffectiveCount t ps pe)) ∧
    (0 < t → min (t : Int) (pe.getD (t : Int)) < max 1 (ps.getD 1) →
      pdfEffectiveTotalPages (some t) ps pe = some (t : Int)) := by
  refine ⟨rfl, ?_, ?_⟩
  · intro ht hle
    simp only [pdfEffectiveTotalPages, specEffectiveCount]
    split_ifs with h1
    · exact absurd h1 (by omega)
    · simp only [Option.some_inj]
      omega
  · intro ht hlt
    simp only [pdfEffectiveTotalPages]
    split_ifs with h1 h2
    · exact absurd h1 (by omega)
    · exact absurd h2 (by omega)
    · rfl

/-- C2 witness: range [3, 7] of a 10-page source gives 5 pages on both
paths, and the empty range [20, 30] leaves the document path at 10. -/
theorem effective_count_amended_witness :
    (archiveEffectiveTotalPages 10 (some 3) (some 7) = specEffectiveCount 10 (some 3) (some 7) ∧
     pdfEffectiveTotalPages (some 10) (some 3) (some 7) =
       some (specEffectiveCount 10 (some 3) (some 7))) ∧
    pdfEffectiveTotalPages (some 10) (some 20) (some 30) = some 10 :=
  ⟨⟨(effective_count_amended 10 (some 3) (some 7)).1,
    (effective_count_amended 10 (some 3) (some 7)).2.1 (by decide) (by decide)⟩,
   (effective_count_amended 10 (some 20) (some 30)).2.2 (by decide) (by decide)⟩

/-- C9 counterexample: on the failure path the temporary working
directory is never removed, and the uploaded source is removed only
after the failure response has been sent — the claim's cleanup-before-
reporting does not hold. -/
theorem failure_cleanup_counterexample :
    Ev.removeTempDir ∉ convertFailureTrace ∧
    convertFailureTrace.indexOf Ev.reportFailure < convertFailureTrace.indexOf Ev.removeSource := by
  refine ⟨?_, ?_⟩ <;> decide

/-- C9 (amended): on task failure only the uploaded source file is
removed, and only after the failure is reported; the temporary
directory is removed (before reporting) only on the success path. -/
theorem failure_cleanup_amended :
    (Ev.removeSource ∈ convertFailureTrace ∧
     Ev.removeTempDir ∉ convertFailureTrace ∧
     convertFailureTrace.indexOf Ev.reportFailure < convertFailureTrace.indexOf Ev.removeSource) ∧
    (Ev.removeTempDir ∈ convertSuccessTrace ∧ Ev.removeSource ∈ convertSuccessTrace ∧
     convertSuccessTrace.indexOf Ev.removeTempDir < convertSuccessTrace.indexOf Ev.reportSuccess ∧
     convertSuccessTrace.indexOf Ev.removeSource < convertSuccessTrace.indexOf Ev.reportSuccess) := by
  refine ⟨⟨?_, ?_, ?_⟩, ⟨?_, ?_, ?_, ?_⟩⟩ <;> decide

/-- C3: the Result's `pages` field is the never-updated
`effectiveTotalPages`, while a split doubles a wide page in the output:
for one 200x100 page in range, two renumbered pages are produced but
the report says 1. -/
theorem reported_pages_split_mismatch :
    convertReportedPages 1 = 1 ∧
    (expandedFiles (some "auto") true false none 1 [⟨"page-001.jpg", 200, 100⟩]).length = 2 := by
  refine ⟨rfl, ?_⟩
  decide

/-- C1 counterexample: with two tasks where the first fails the way an
empty range does, the handler answers with a batch-level failure and
the second task's (would-be) result appears nowhere, although the
second task alone would have succeeded. -/
theorem task_error_aborts_batch_counterexample :
    convertHandler demoStep [0, 1] = BatchResponse.failure "No images in range." ∧
    demoStep 1 = Except.ok 101 ∧
    reportedResults (convertHandler demoStep [0, 1]) = [] :=
  ⟨rfl, rfl, rfl⟩

/-- C1 (amended): the task loop has no per-task error recovery: the
first failing task makes the whole `/convert` handler answer with a
single batch-level failure carrying that task's error, and no per-task
results are reported — sibling tasks' results never appear. -/
theorem task_error_aborts_batch (α β : Type) (step : α → Except String β)
    (pre : List α) (t : α) (post : List α) (e : String)
    (hpre : ∀ x ∈ pre, ∃ r, step x = Except.ok r)
    (ht : step t = Except.error e) :
    convertHandler step (pre ++ t :: post) = BatchResponse.failure e ∧
    reportedResults (convertHandler step (pre ++ t :: post)) = ([] : List β) := by
  have hloop : runTaskLoop step (pre ++ t :: post) = Except.error e := by
    induction pre with
    | nil =>
      simp only [List.nil_append, runTaskLoop, ht]
    | cons x xs ih =>
      obtain ⟨r, hr⟩ := hpre x (List.mem_cons_self x xs)
      have hxs : runTaskLoop step (xs ++ t :: post) = Except.error e :=
        ih (fun y hy => hpre y (List.mem_cons_of_mem x hy))
      simp only [List.cons_append, runTaskLoop, List.append_eq, hr, hxs]
  unfold convertHandler
  rw [hloop]
  exact ⟨rfl, rfl⟩

/-- C1 witness: a successful task, then the failing one, then another
task — the batch fails with the first error and reports nothing. -/
theorem task_error_aborts_batch_witness :
    convertHandler demoStep ([1] ++ 0 :: [2]) = BatchResponse.failure "No images in range." ∧
    reportedResults (convertHandler demoStep ([1] ++ 0 :: [2])) = ([] : List Nat) :=
  task_error_aborts_batch Nat Nat demoStep [1] 0 [2] "No images in range."
    (by
      intro x hx
      simp at hx
      subst hx
      exact ⟨101, rfl⟩)
    rfl

/-- C7: renumbering renames page `i` (1-based) to its decimal index
zero-padded to width `max 3 (digits of N)` plus the page's extension,
and renumbering an already renumbered sequence reproduces exactly the
same names. -/
theorem renumber_shape_and_idempotent (ns : List (List Char)) :
    renumber (renumber ns) = renumber ns ∧
    ∀ (i : Nat) (h1 : i < ns.length) (h2 : i < (renumber ns).length),
      (renumber ns).get ⟨i, h2⟩ =
        padStart (max 3 (natChars ns.length).length) (natChars (i + 1)) ++
          extnameL (ns.get ⟨i, h1⟩) := by
  constructor
  · unfold renumber
    rw [renumAux_length]
    exact renumAux_idem _ 0 ns
  · intro i h1 h2
    have h2' : i < (renumAux (max 3 (natChars ns.length).length) 0 ns).length := by
      rw [renumAux_length]
      exact h1
    have := renumAux_get (max 3 (natChars ns.length).length) ns 0 i h1 h2'
    simpa using this

/-- C7 witness: a one-page sequence `a.jpg` renumbers to `001.jpg` and
renumbering it again changes nothing. -/
theorem renumber_shape_and_idempotent_witness :
    renumber (renumber [['a', '.', 'j', 'p', 'g']]) = renumber [['a', '.', 'j', 'p', 'g']] ∧
    (renumber [['a', '.', 'j', 'p', 'g']]).get ⟨0, by decide⟩ =
      padStart (max 3 (natChars 1).length) (natChars 1) ++ extnameL ['a', '.', 'j', 'p', 'g'] := by
  refine ⟨(renumber_shape_and_idempotent [['a', '.', 'j', 'p', 'g']]).1, ?_⟩
  have h := (renumber_shape_and_idempotent [['a', '.', 'j', 'p', 'g']]).2 0
    (by decide) (by rw [renumber_length]; decide)
  simpa using h

/-! ## Counting lemmas for the classifier -/

theorem countP_id_zero (f : UpFile) (P : UpFile → Bool) (fs : List UpFile)
    (h : f.id ∉ fs.map UpFile.id) :
    fs.countP (fun g => g.id == f.id && P g) = 0 := by
  induction fs with
  | nil => rfl
  | cons g gs ih =>
    simp only [List.map_cons, List.mem_cons] at h
    push_neg at h
    rw [List.countP_cons, ih h.2]
    have hg : (g.id == f.id) = false := by
      simp only [beq_eq_false_iff_ne, ne_eq]
      exact fun e => h.1 e.symm
    simp [hg]

theorem countP_id_one (f : UpFile) (P : UpFile → Bool) (fs : List UpFile)
    (hnd : (fs.map UpFile.id).Nodup) (hf : f ∈ fs) :
    fs.countP (fun g => g.id == f.id && P g) = if P f then 1 else 0 := by
  induction fs with
  | nil => cases hf
  | cons g gs ih =>
    rw [List.map_cons, List.nodup_cons] at hnd
    rw [List.countP_cons]
    rcases List.mem_cons.mp hf with rfl | hf'
    · rw [countP_id_zero f P gs hnd.1]
      simp
    · have hgne : (g.id == f.id) = false := by
        simp only [beq_eq_false_iff_ne, ne_eq]
        intro e
        exact hnd.1 (e ▸ List.mem_map.mpr ⟨f, hf', rfl⟩)
      rw [ih hnd.2 hf']
      simp [hgne]

theorem sum_map_flatten (g : TaskC → Nat) (tss : List (List TaskC)) :
    ((tss.flatten).map g).sum = (tss.map (fun ts => (ts.map g).sum)).sum := by
  induction tss with
  | nil => rfl
  | cons ts tss ih =>
    simp only [List.flatten_cons, List.map_append, List.sum_append, List.map_cons,
      List.sum_cons, ih]

theorem sum_if_eq_countP (p : UpFile → Bool) (l : List UpFile) :
    (l.map (fun g => if p g then (1 : Nat) else 0)).sum = l.countP p := by
  induction l with
  | nil => rfl
  | cons g gs ih =>
    rw [List.map_cons, List.sum_cons, ih, List.countP_cons]
    by_cases hp : p g <;> simp [hp, Nat.add_comm]

theorem sum_indicator_nodup (keys : List String) (s : String)
    (hnd : keys.Nodup) (hs : s ∈ keys) :
    (keys.map (fun k => if s = k then (1 : Nat) else 0)).sum = 1 := by
  induction keys with
  | nil => cases hs
  | cons k ks ih =>
    rw [List.nodup_cons] at hnd
    rcases List.mem_cons.mp hs with rfl | hs'
    · rw [List.map_cons, List.sum_cons, if_pos rfl]
      have hz : (ks.map (fun k => if s = k then (1 : Nat) else 0)).sum = 0 := by
        apply List.sum_eq_zero
        intro x hx
        obtain ⟨k2, hk2, rfl⟩ := List.mem_map.mp hx
        have hne : s ≠ k2 := fun e => hnd.1 (e ▸ hk2)
        simp [hne]
      rw [hz]
    · have hk : s ≠ k := by rintro rfl; exact hnd.1 hs'
      rw [List.map_cons, List.sum_cons, if_neg hk, ih hnd.2 hs']

theorem rootContribution (files : List UpFile) (f : UpFile) :
    ((rootMergeTasks files).map (fileCountIn f)).sum =
      (rootImagesOf files).countP (fun g => g.id == f.id) := by
  simp only [rootMergeTasks]
  split_ifs with h
  · rw [List.isEmpty_iff.mp h]
    rfl
  · simp [fileCountIn]

theorem folderKeyContribution (files : List UpFile) (f : UpFile) (k : String) :
    ((folderTasksFor files k).map (fileCountIn f)).sum =
      ((groupFiles files k).filter isImageFile).countP (fun g => g.id == f.id) := by
  simp only [folderTasksFor]
  split_ifs with h
  · rw [List.isEmpty_iff.mp h]
    rfl
  · simp [fileCountIn]

theorem convertContribution (files : List UpFile) (f : UpFile) :
    ((convertTasksOf files).map (fileCountIn f)).sum =
      ((rootFilesOf files).filter (fun g => !isImageFile g)).countP
        (fun g => g.id == f.id) := by
  unfold convertTasksOf
  rw [List.map_map]
  have hfun : (fileCountIn f ∘ fun g => TaskC.mk TaskKind.CONVERT [g]) =
      fun g => if (g.id == f.id) then (1 : Nat) else 0 := by
    funext g
    simp [fileCountIn, List.countP_cons]
  rw [hfun, sum_if_eq_countP]

/-- C6 counterexample: a folder-resident non-image upload
(`chapter1/notes.txt`) is assigned to no task at all: the folder MERGE
task keeps only image files, and non-root files never become CONVERT
tasks. -/
theorem classifier_counterexample :
    memberCount ⟨0, ["chapter1", "notes.txt"], "txt"⟩
        (classify [⟨0, ["chapter1", "notes.txt"], "txt"⟩]) = 0 ∧
    memberCount ⟨0, ["chapter1", "notes.txt"], "txt"⟩
        (classify [⟨0, ["chapter1", "notes.txt"], "txt"⟩]) ≠ 1 := by
  refine ⟨?_, ?_⟩ <;> decide

/-- C6 (amended): in an upload batch of pairwise distinct files, every
root file and every folder-resident image belongs to exactly one task
(root images to the single root MERGE task, folder images to their
first path segment's MERGE task, root non-images each to their own
CONVERT task), while a folder-resident non-image file belongs to no
task. -/
theorem classifier_membership (files : List UpFile) (f : UpFile)
    (hnd : (files.map UpFile.id).Nodup) (hf : f ∈ files) :
    memberCount f (classify files) =
      if isFolderFile f && !isImageFile f then 0 else 1 := by
  unfold memberCount classify
  rw [List.map_append, List.sum_append, List.map_append, List.sum_append]
  have hroot : ((rootMergeTasks files).map (fileCountIn f)).sum =
      if isImageFile f && !isFolderFile f then 1 else 0 := by
    rw [rootContribution]
    unfold rootImagesOf rootFilesOf
    rw [List.countP_filter, List.countP_filter]
    have hsh : (fun g => (g.id == f.id && isImageFile g) && !isFolderFile g) =
        (fun g => g.id == f.id && (isImageFile g && !isFolderFile g)) := by
      funext g
      rw [Bool.and_assoc]
    rw [hsh, countP_id_one f (fun g => isImageFile g && !isFolderFile g) files hnd hf]
  have hconv : ((convertTasksOf files).map (fileCountIn f)).sum =
      if !isImageFile f && !isFolderFile f then 1 else 0 := by
    rw [convertContribution]
    unfold rootFilesOf
    rw [List.countP_filter, List.countP_filter]
    have hsh : (fun g => ((g.id == f.id) && !isImageFile g) && !isFolderFile g) =
        (fun g => g.id == f.id && (!isImageFile g && !isFolderFile g)) := by
      funext g
      rw [Bool.and_assoc]
    rw [hsh, countP_id_one f (fun g => !isImageFile g && !isFolderFile g) files hnd hf]
  have hkeysnd : (groupKeys files).Nodup := List.nodup_dedup _
  have hvalue : ∀ k : String, ((folderTasksFor files k).map (fileCountIn f)).sum =
      if (isImageFile f && (isFolderFile f && (firstSeg f == k))) = true then 1 else 0 := by
    intro k
    rw [folderKeyContribution]
    unfold groupFiles
    rw [List.countP_filter, List.countP_filter]
    have hsh : (fun g => ((g.id == f.id) && isImageFile g) &&
          (isFolderFile g && (firstSeg g == k))) =
        (fun g => g.id == f.id &&
          (isImageFile g && (isFolderFile g && (firstSeg g == k)))) := by
      funext g
      rw [Bool.and_assoc]
    rw [hsh, countP_id_one f
      (fun g => isImageFile g && (isFolderFile g && (firstSeg g == k))) files hnd hf]
  have hfold : (((groupKeys files).map (folderTasksFor files)).flatten.map
        (fileCountIn f)).sum =
      if isFolderFile f && isImageFile f then 1 else 0 := by
    rw [sum_map_flatten (fileCountIn f) ((groupKeys files).map (folderTasksFor files))]
    rw [List.map_map]
    by_cases hb : (isFolderFile f && isImageFile f) = true
    · have hb1 : isFolderFile f = true := by
        rw [Bool.and_eq_true] at hb
        exact hb.1
      have hb2 : isImageFile f = true := by
        rw [Bool.and_eq_true] at hb
        exact hb.2
      have hpt : ∀ k ∈ groupKeys files,
          ((fun ts => (ts.map (fileCountIn f)).sum) ∘ folderTasksFor files) k =
            (fun k => if firstSeg f = k then (1 : Nat) else 0) k := by
        intro k hk
        simp only [Function.comp]
        rw [hvalue k]
        by_cases h3 : firstSeg f = k <;> simp [hb1, hb2, h3]
      rw [List.map_congr_left hpt, if_pos hb]
      have hmem : firstSeg f ∈ groupKeys files := by
        unfold groupKeys
        apply List.mem_dedup.mpr
        exact List.mem_map.mpr ⟨f, List.mem_filter.mpr ⟨hf, hb1⟩, rfl⟩
      exact sum_indicator_nodup _ _ hkeysnd hmem
    · have hpt : ∀ k ∈ groupKeys files,
          ((fun ts => (ts.map (fileCountIn f)).sum) ∘ folderTasksFor files) k =
            (fun _ => (0 : Nat)) k := by
        intro k hk
        simp only [Function.comp]
        rw [hvalue k]
        rw [if_neg]
        intro hcond
        rw [Bool.and_eq_true, Bool.and_eq_true] at hcond
        apply hb
        rw [Bool.and_eq_true]
        exact ⟨hcond.2.1, hcond.1⟩
      rw [List.map_congr_left hpt, if_neg hb]
      apply List.sum_eq_zero
      intro x hx
      obtain ⟨k, hk, rfl⟩ := List.mem_map.mp hx
      rfl
  rw [hroot, hconv, hfold]
  by_cases h1 : isFolderFile f <;> by_cases h2 : isImageFile f <;> simp [h1, h2]

/-- C6 witness: a root image, a folder image and a root document each
land in exactly one task. -/
theorem classifier_membership_witness :
    ((List.map UpFile.id
        [⟨0, ["cover.jpg"], "jpg"⟩, ⟨1, ["vol1", "p1.png"], "png"⟩,
         ⟨2, ["book.pdf"], "pdf"⟩]).Nodup) ∧
    memberCount ⟨2, ["book.pdf"], "pdf"⟩
      (classify [⟨0, ["cover.jpg"], "jpg"⟩, ⟨1, ["vol1", "p1.png"], "png"⟩,
                 ⟨2, ["book.pdf"], "pdf"⟩]) =
      if isFolderFile ⟨2, ["book.pdf"], "pdf"⟩ &&
          !isImageFile ⟨2, ["book.pdf"], "pdf"⟩ then 0 else 1 :=
  ⟨by decide,
   classifier_membership
     [⟨0, ["cover.jpg"], "jpg"⟩, ⟨1, ["vol1", "p1.png"], "png"⟩, ⟨2, ["book.pdf"], "pdf"⟩]
     ⟨2, ["book.pdf"], "pdf"⟩ (by decide) (by decide)⟩

end BDConverter
